import Mathlib

/-!
# Verification of the pEYES event matching and scoring engine

This file gives a shallow embedding, in Lean 4, of the core of the pEYES
repository: the Event data model (src/pEYES/_DataModels/Event.py), the
event-matching dispatcher and agreement statistics
(src/pEYES/event_matching.py), and the per-label duration configuration.

Modelling conventions:
* Python floats that can only hold finite values or the not-a-number
  sentinel are modelled by the inductive type Fl (nan or a rational).
  Timestamps are modelled as rationals (the claims under study never
  exercise not-a-number timestamps).
* Python exceptions (assert failures, ValueError, ZeroDivisionError,
  AttributeError) are modelled with Except String.
* Quantities whose exact value needs a square root or an arctangent
  (np.linalg.norm, visual-angle conversions) live in the real numbers.
-/

/-- Model of a Python float restricted to the values that arise in the
code under study: the not-a-number sentinel or a finite rational. -/
inductive Fl where
  | nan : Fl
  | fin (q : ℚ) : Fl
deriving DecidableEq

namespace Fl

/-- Python math.isnan / np.isnan on an Fl value. -/
def isNaN : Fl → Bool
  | nan => true
  | fin _ => false

/-- Python comparison v < 0: false whenever v is not-a-number. -/
def lt0 : Fl → Bool
  | nan => false
  | fin q => decide (q < 0)

/-- Python comparison v > 0: false whenever v is not-a-number. -/
def gt0 : Fl → Bool
  | nan => false
  | fin q => decide (0 < q)

/-- Python comparison a > b: false whenever either side is not-a-number. -/
def gtF : Fl → Fl → Bool
  | fin a, fin b => decide (b < a)
  | _, _ => false

/-- Python comparison a < b: false whenever either side is not-a-number. -/
def ltF : Fl → Fl → Bool
  | fin a, fin b => decide (a < b)
  | _, _ => false

/-- Python comparison a <= b: false whenever either side is not-a-number. -/
def leF : Fl → Fl → Bool
  | fin a, fin b => decide (a ≤ b)
  | _, _ => false

/-- IEEE-style addition on the nan-or-finite fragment. -/
def add : Fl → Fl → Fl
  | fin a, fin b => fin (a + b)
  | _, _ => nan

/-- IEEE-style multiplication on the nan-or-finite fragment. -/
def mul : Fl → Fl → Fl
  | fin a, fin b => fin (a * b)
  | _, _ => nan

instance : Add Fl := ⟨Fl.add⟩
instance : Mul Fl := ⟨Fl.mul⟩

end Fl

/-- Python float division: raises ZeroDivisionError on a zero divisor
(this is scalar CPython float division, not numpy array division). -/
def pyDivQ (a b : ℚ) : Except String ℚ :=
  if b = 0 then Except.error "ZeroDivisionError: float division by zero"
  else Except.ok (a / b)

/-- Python float division lifted to Fl: not-a-number propagates, a finite
numerator over an exactly-zero finite denominator raises. -/
def pyDivFl : Fl → Fl → Except String Fl
  | Fl.fin a, Fl.fin b =>
      if b = 0 then Except.error "ZeroDivisionError: float division by zero"
      else Except.ok (Fl.fin (a / b))
  | _, _ => Except.ok Fl.nan

/- ## String normalization helpers

Python str.lower / str.strip / str.replace(single char) / str.removesuffix,
modelled on the character list underlying a Lean String. -/

/-- Python s.replace(c, d) for one-character patterns. -/
def replChar (c d : Char) : List Char → List Char :=
  List.map (fun a => if a = c then d else a)

/-- Python s.strip(): remove leading and trailing whitespace. -/
def pyStrip (l : List Char) : List Char :=
  ((l.dropWhile Char.isWhitespace).reverse.dropWhile Char.isWhitespace).reverse

/-- Python s.removesuffix(suf): drop suf if it is a suffix, else return s. -/
def removeSuffix (l suf : List Char) : List Char :=
  if suf.isSuffixOf l then l.take (l.length - suf.length) else l

/-- The match_by normalization on line 42 of event_matching.py:
match_by.lower().replace("_", " ").replace("-", " ").strip() -/
def normalizeMatchBy (s : String) : String :=
  String.mk (pyStrip (replChar '-' ' ' (replChar '_' ' ' (s.data.map Char.toLower))))

/-- The feature-name normalization on lines 196-197 of event_matching.py:
feature.lower().strip().replace(" ", "_").replace("-", "_") followed by
removesuffix("_difference"). -/
def normalizeFeature (s : String) : String :=
  String.mk (removeSuffix (replChar '-' '_' (replChar ' ' '_' (pyStrip (s.data.map Char.toLower)))) "_difference".data)

/-- Python substring containment (the "in" operator on strings). -/
def hasInfix (sub : List Char) : List Char → Bool
  | [] => sub.isEmpty
  | a :: t => sub.isPrefixOf (a :: t) || hasInfix sub t

/-- The family of matching strategies named in the dispatch chain of
the match function (event_matching.py lines 46-94). -/
inductive Strategy where
  | firstOverlap | lastOverlap | maxOverlap | longestOverlap
  | iou | onsetDifference | offsetDifference | windowBased
  | l2Timing | generic
deriving DecidableEq

/-- Which EventMatcher strategy the match function dispatches to, as a
function of the raw match_by string: a literal transcription of the
if-chain on lines 46-94 of event_matching.py (the comparisons there are
against the normalized string computed on line 42). -/
def strategyOf (mb : String) : Strategy :=
  let m := normalizeMatchBy mb
  if m = "first" ∨ m = "first overlap" then .firstOverlap
  else if m = "last" ∨ m = "last overlap" then .lastOverlap
  else if m = "max" ∨ m = "max overlap" then .maxOverlap
  else if hasInfix "longest".data m.data && hasInfix "overlap".data m.data then .longestOverlap
  else if m = "iou" ∨ m = "intersection over union" then .iou
  else if m = "onset" ∨ m = "onset difference" then .onsetDifference
  else if m = "offset" ∨ m = "offset max_onset_difference" then .offsetDifference
  else if m = "window" ∨ m = "window based" then .windowBased
  else if hasInfix "l2".data m.data then .l2Timing
  else .generic

/- ## The Event data model (src/pEYES/_DataModels/Event.py) -/

/-- The closed label enumeration of
src/pEYES/_DataModels/EventLabelEnum.py. -/
inductive EventLabelEnum where
  | UNDEFINED | FIXATION | SACCADE | PSO | SMOOTH_PURSUIT | BLINK
deriving DecidableEq

/-- One gaze sample row (t, x, y, pupil) as stacked by np.vstack in
BaseEvent.__init__; the timestamp is a rational, the other three
channels are nan-capable floats. -/
abbrev Sample : Type := ℚ × Fl × Fl × Fl

/-- Row-wise zip of the four per-sample arrays (np.vstack([t,x,y,p]).T). -/
def zip4 : List ℚ → List Fl → List Fl → List Fl → List Sample
  | a :: as_, b :: bs, c :: cs, d :: ds => (a, b, c, d) :: zip4 as_ bs cs ds
  | _, _, _, _ => []

/-- A constructed BaseEvent: the label tag of the concrete subclass plus
the stored per-sample arrays and calibration scalars. -/
structure Event where
  label : EventLabelEnum
  t : List ℚ
  x : List Fl
  y : List Fl
  pupil : List Fl
  viewer_distance : Fl
  pixel_size : Fl
deriving DecidableEq

/-- The ordering used to sort the stacked sample rows: by timestamp
(samples[samples[:, 0].argsort()] on line 33 of Event.py). -/
def sampleLE (a b : Sample) : Prop := a.1 ≤ b.1

instance : DecidableRel sampleLE := fun a b =>
  inferInstanceAs (Decidable (a.1 ≤ b.1))

instance : IsTotal Sample sampleLE := ⟨fun a b => le_total a.1 b.1⟩

instance : IsTrans Sample sampleLE := ⟨fun _ _ _ => le_trans⟩

/-- The stacked input rows after applying the np.full_like defaults for
missing x / y / pupil arrays (lines 26-28 of Event.py). -/
def inputSamples (t : List ℚ) (x y pupil : Option (List Fl)) : List Sample :=
  zip4 t (x.getD (t.map fun _ => Fl.nan)) (y.getD (t.map fun _ => Fl.nan))
    (pupil.getD (t.map fun _ => Fl.nan))

/-- BaseEvent.__init__ (Event.py lines 17-39): defaults missing channels
to nan arrays, asserts equal lengths and positive-or-nan calibration
scalars, sorts the stacked samples by time and stores the columns.
A failed Python assert is modelled as an error result. -/
def Event.mk? (label : EventLabelEnum) (t : List ℚ) (x y pupil : Option (List Fl))
    (viewer_distance pixel_size : Fl) : Except String Event :=
  let xd := x.getD (t.map fun _ => Fl.nan)
  let yd := y.getD (t.map fun _ => Fl.nan)
  let pd := pupil.getD (t.map fun _ => Fl.nan)
  if ¬(t.length = xd.length ∧ xd.length = yd.length ∧ yd.length = pd.length) then
    Except.error "AssertionError: t, x, y, and pupil must have the same length"
  else if ¬(viewer_distance.isNaN || viewer_distance.gt0) then
    Except.error "AssertionError: viewer_distance must be a positive number"
  else if ¬(pixel_size.isNaN || pixel_size.gt0) then
    Except.error "AssertionError: pixel_size must be a positive number"
  else
    let sorted := (zip4 t xd yd pd).insertionSort sampleLE
    Except.ok {
      label := label
      t := sorted.map fun s => s.1
      x := sorted.map fun s => s.2.1
      y := sorted.map fun s => s.2.2.1
      pupil := sorted.map fun s => s.2.2.2
      viewer_distance := viewer_distance
      pixel_size := pixel_size }

/-- The stored sample rows of a constructed event, recombined. -/
def Event.samples (e : Event) : List Sample := zip4 e.t e.x e.y e.pupil

/-- BaseEvent.start_time: float(self._t[0]). -/
def Event.startTime (e : Event) : ℚ := e.t.headD 0

/-- BaseEvent.end_time: float(self._t[-1]). -/
def Event.endTime (e : Event) : ℚ := e.t.getLastD 0

/-- BaseEvent.duration: end_time - start_time. -/
def Event.duration (e : Event) : ℚ := e.endTime - e.startTime

/-- BaseEvent.time_overlap (Event.py lines 76-84): raw overlap of the
two closed time intervals, divided by the duration of the receiver when
normalize is true. The scalars here are CPython floats, so a division
by an exactly-zero duration raises ZeroDivisionError. -/
def Event.time_overlap (e other : Event) (normalize : Bool) : Except String ℚ :=
  let start_time := max e.startTime other.startTime
  let end_time := min e.endTime other.endTime
  let total_overlap := max 0 (end_time - start_time)
  if normalize then pyDivQ total_overlap e.duration
  else Except.ok total_overlap

/-- BaseEvent.time_iou (Event.py lines 86-94): raw overlap divided by
the union of the two durations; the division is unguarded. -/
def Event.time_iou (e other : Event) : Except String ℚ :=
  let total_overlap := max 0 (min e.endTime other.endTime - max e.startTime other.startTime)
  let total_union := e.duration + other.duration - total_overlap
  pyDivQ total_overlap total_union

/-- BaseEvent.time_l2 (Event.py lines 96-102): the Euclidean norm of
the (onset difference, offset difference) vector. -/
noncomputable def Event.time_l2 (e other : Event) : ℝ :=
  Real.sqrt (((e.startTime - other.startTime : ℚ) : ℝ) ^ 2 +
    ((e.endTime - other.endTime : ℚ) : ℝ) ^ 2)

/- ## Pixel-space derived features

The helper module src/pEYES/helpers/pixel_utils.py is imported by
Event.py but is not part of the sources under study, so its two
conversion functions are modelled from the spec. -/

/-- A real-valued quantity that may be the not-a-number sentinel
(results of np.linalg.norm and of the visual-angle conversions). -/
inductive FVal where
  | nan : FVal
  | fin (r : ℝ) : FVal

/-- Subtraction of two nan-capable real quantities. -/
def FVal.sub : FVal → FVal → FVal
  | fin a, fin b => fin (a - b)
  | _, _ => nan

/-- Modelled from the spec: pixel_utils.pixels_to_visual_angle is not
under src/. The spec fixes only that it converts a pixel measurement to
visual-angle degrees using the viewer distance and pixel size and that
a not-a-number calibration scalar propagates; the concrete arctangent
formula below is one definite choice of such a conversion. -/
noncomputable def pixels_to_visual_angle (px : FVal) (d ps : Fl) : FVal :=
  match px, d, ps with
  | FVal.fin p, Fl.fin dv, Fl.fin psv =>
      FVal.fin ((180 / Real.pi) * Real.arctan ((p * (psv : ℝ)) / (dv : ℝ)))
  | _, _, _ => FVal.nan

/-- Modelled from the spec: pixel_utils.calculate_azimuth is not under
src/. The spec fixes only that it computes the angle between two pixels
in degrees with not-a-number propagation; the arctangent formula below
is one definite choice. -/
noncomputable def calculate_azimuth (s e : Fl × Fl) : FVal :=
  match s.1, s.2, e.1, e.2 with
  | Fl.fin x1, Fl.fin y1, Fl.fin x2, Fl.fin y2 =>
      FVal.fin ((180 / Real.pi) * Real.arctan (((y2 : ℝ) - (y1 : ℝ)) / ((x2 : ℝ) - (x1 : ℝ))))
  | _, _, _, _ => FVal.nan

/-- BaseEvent.start_pixel: the first stored x and y coordinates. -/
def Event.startPixel (e : Event) : Fl × Fl := (e.x.headD Fl.nan, e.y.headD Fl.nan)

/-- BaseEvent.end_pixel: the last stored x and y coordinates. -/
def Event.endPixel (e : Event) : Fl × Fl := (e.x.getLastD Fl.nan, e.y.getLastD Fl.nan)

/-- BaseEvent.distance: np.linalg.norm of the start-to-end pixel
displacement, not-a-number when any involved coordinate is. -/
noncomputable def Event.distance (e : Event) : FVal :=
  match e.startPixel.1, e.startPixel.2, e.endPixel.1, e.endPixel.2 with
  | Fl.fin x1, Fl.fin y1, Fl.fin x2, Fl.fin y2 =>
      FVal.fin (Real.sqrt (((x2 : ℝ) - (x1 : ℝ)) ^ 2 + ((y2 : ℝ) - (y1 : ℝ)) ^ 2))
  | _, _, _, _ => FVal.nan

/-- BaseEvent.amplitude: the displacement distance in visual degrees. -/
noncomputable def Event.amplitude (e : Event) : FVal :=
  pixels_to_visual_angle e.distance e.viewer_distance e.pixel_size

/-- BaseEvent.azimuth: the start-to-end angle in degrees. -/
noncomputable def Event.azimuth (e : Event) : FVal :=
  calculate_azimuth e.startPixel e.endPixel

/- ## Feature differ (event_matching.py, calculate / _calculate_impl) -/

/-- The normalized names accepted by the dispatch chain of
_calculate_impl (event_matching.py lines 198-215). -/
def supportedFeatures : List String :=
  ["onset", "offset", "duration", "amplitude", "azimuth",
   "center_pixel_distance", "time_overlap", "time_iou", "time_l2"]

/-- _calculate_impl (event_matching.py lines 195-216): normalizes the
feature name and computes one value per matched pair, in mapping order.
The center_pixel_distance branch calls gt.center_distance(pred), an
attribute BaseEvent does not define, so on a non-empty mapping it
raises AttributeError; an unknown name raises ValueError. -/
noncomputable def calculateImpl (matched : List (Event × Event)) (feature : String) :
    Except String (List FVal) :=
  let fn := normalizeFeature feature
  if fn = "onset" then
    Except.ok (matched.map fun gp => FVal.fin ((gp.1.startTime - gp.2.startTime : ℚ) : ℝ))
  else if fn = "offset" then
    Except.ok (matched.map fun gp => FVal.fin ((gp.1.endTime - gp.2.endTime : ℚ) : ℝ))
  else if fn = "duration" then
    Except.ok (matched.map fun gp => FVal.fin ((gp.1.duration - gp.2.duration : ℚ) : ℝ))
  else if fn = "amplitude" then
    Except.ok (matched.map fun gp => FVal.sub gp.1.amplitude gp.2.amplitude)
  else if fn = "azimuth" then
    Except.ok (matched.map fun gp => FVal.sub gp.1.azimuth gp.2.azimuth)
  else if fn = "center_pixel_distance" then
    if matched.isEmpty then Except.ok []
    else Except.error "AttributeError: BaseEvent object has no attribute center_distance"
  else if fn = "time_overlap" then
    matched.mapM fun gp => (gp.1.time_overlap gp.2 true).map fun q => FVal.fin (q : ℝ)
  else if fn = "time_iou" then
    matched.mapM fun gp => (gp.1.time_iou gp.2).map fun q => FVal.fin (q : ℝ)
  else if fn = "time_l2" then
    Except.ok (matched.map fun gp => FVal.fin (gp.1.time_l2 gp.2))
  else Except.error ("Unknown feature: " ++ feature)

/-- The tqdm progress wrapper: purely cosmetic, the iterated sequence
is unchanged whether or not the progress bar is displayed. -/
def tqdm (l : List α) (_verbose : Bool) : List α := l

/-- calculate (event_matching.py lines 121-147): a single feature name
gives one flat array, a sequence of names gives one named array per
feature, computed over the same mapping order. -/
noncomputable def calculate (matched : List (Event × Event))
    (features : String ⊕ List String) (verbose : Bool) :
    Except String (List FVal ⊕ List (String × List FVal)) :=
  match features with
  | Sum.inl f => (calculateImpl matched f).map Sum.inl
  | Sum.inr fs =>
      ((tqdm fs verbose).mapM fun f => (calculateImpl matched f).map fun a => (f, a)).map Sum.inr

/- ## Agreement statistics (event_matching.py lines 150-240) -/

/-- _extract_contingency_values (event_matching.py lines 219-240).
The positive_labels parameter is modelled as the label list the
isinstance-normalization on line 235 produces. -/
def extract_contingency_values (ground_truth prediction : List Event)
    (matched : List (Event × Event)) (positive_labels : List EventLabelEnum) :
    ℕ × ℕ × ℕ × ℕ :=
  let p := (ground_truth.filter fun e => positive_labels.contains e.label).length
  let n := ground_truth.length - p
  let pp := (prediction.filter fun e => positive_labels.contains e.label).length
  let tp := ((matched.map Prod.snd).filter fun e => positive_labels.contains e.label).length
  (p, n, pp, tp)

/-- precision_recall_f1 (event_matching.py lines 150-170): recall and
precision from the contingency counts with the nan sentinel on zero
denominators, and the guarded f1 combination. -/
def precision_recall_f1 (ground_truth prediction : List Event)
    (matched : List (Event × Event)) (positive_labels : List EventLabelEnum) :
    Except String (Fl × Fl × Fl) :=
  let c := extract_contingency_values ground_truth prediction matched positive_labels
  let p := c.1
  let pp := c.2.2.1
  let tp := c.2.2.2
  let recallV := if 0 < p then Fl.fin ((tp : ℚ) / (p : ℚ)) else Fl.nan
  let precisionV := if 0 < pp then Fl.fin ((tp : ℚ) / (pp : ℚ)) else Fl.nan
  (if (precisionV + recallV).gt0 then
      pyDivFl (Fl.fin 2 * (precisionV * recallV)) (precisionV + recallV)
    else Except.ok Fl.nan).map
    fun f1 => (precisionV, recallV, f1)

/- ## Per-label duration configuration (Event.py lines 104-134)

The configuration module src/pEYES/config.py holding EVENT_MAPPING is
not under src/; per the spec it is a process-wide store of
(min_duration, max_duration) per label, modelled here as a function
from labels to a pair of duration bounds. -/

/-- The process-wide per-label duration configuration. -/
abbrev Config : Type := EventLabelEnum → Fl × Fl

/-- BaseEvent.set_min_duration (Event.py lines 109-118): reject a
negative bound, reject a bound above the current max_duration,
otherwise store the new min_duration for the label. -/
def set_min_duration (cfg : Config) (label : EventLabelEnum) (min_duration : Fl) :
    Except String Config :=
  if min_duration.lt0 then
    Except.error "ValueError: min_duration must be a positive number"
  else if Fl.gtF min_duration (cfg label).2 then
    Except.error "ValueError: min_duration must be less than or equal to max_duration"
  else Except.ok (fun l => if l = label then (min_duration, (cfg l).2) else cfg l)

/-- BaseEvent.set_max_duration (Event.py lines 125-134): reject a
negative bound, reject a bound below the current min_duration,
otherwise store the new max_duration for the label. -/
def set_max_duration (cfg : Config) (label : EventLabelEnum) (max_duration : Fl) :
    Except String Config :=
  if max_duration.lt0 then
    Except.error "ValueError: max_duration must be a positive number"
  else if Fl.ltF max_duration (cfg label).1 then
    Except.error "ValueError: max_duration must be greater than or equal to min_duration"
  else Except.ok (fun l => if l = label then ((cfg l).1, max_duration) else cfg l)

/-- One call to a duration setter. -/
inductive DurationUpdate where
  | setMin (label : EventLabelEnum) (v : Fl)
  | setMax (label : EventLabelEnum) (v : Fl)

/-- The bound an update carries. -/
def DurationUpdate.value : DurationUpdate → Fl
  | setMin _ v => v
  | setMax _ v => v

/-- Run one setter call against the configuration: a raised
ValidationError leaves the process-wide state unchanged. -/
def applyUpdate (cfg : Config) (u : DurationUpdate) : Config :=
  match u with
  | .setMin label v =>
      match set_min_duration cfg label v with
      | Except.ok c => c
      | Except.error _ => cfg
  | .setMax label v =>
      match set_max_duration cfg label v with
      | Except.ok c => c
      | Except.error _ => cfg

/-- Run a sequence of setter calls. -/
def applyUpdates (cfg : Config) (us : List DurationUpdate) : Config :=
  us.foldl applyUpdate cfg

/- ## The EventMatcher strategy family

src/pEYES/_DataModels/EventMatcher.py is imported by event_matching.py
but is not under src/, so the strategy implementations are modelled
from the spec (section 4.2): each strategy greedily walks the
ground-truth sequence, restricts candidates to same-label predicted
events unless cross-matching is allowed, keeps only candidates passing
the eligibility predicate, picks the best candidate under the
selection rule (first-wins on ties), and never reuses a predicted
event across ground-truth keys. -/

/-- Raw interval overlap of two events, in milliseconds. -/
def overlapRaw (a b : Event) : ℚ :=
  max 0 (min a.endTime b.endTime - max a.startTime b.startTime)

/-- Guarded intersection-over-union used by the modelled matcher. -/
def iouQ (a b : Event) : ℚ :=
  let o := overlapRaw a b
  let u := a.duration + b.duration - o
  if u = 0 then 0 else o / u

/-- Squared timing l2 distance (used so the matcher stays rational). -/
def l2sq (a b : Event) : ℚ :=
  (a.startTime - b.startTime) ^ 2 + (a.endTime - b.endTime) ^ 2

/-- Keyword parameters the dispatcher pops and forwards
(event_matching.py lines 43-94). -/
structure MatchKwargs where
  min_overlap : Option ℚ
  min_iou : Option ℚ
  max_onset_difference : Option ℚ
  max_offset_difference : Option ℚ
  max_l2 : Option ℚ
  allow_xmatch : Option Bool
  allow_cross_match : Option Bool
  elig : Option (Event → Event → Bool)
  better : Option (Event → Event → Event → Bool)

/-- The empty keyword dictionary. -/
def MatchKwargs.empty : MatchKwargs :=
  ⟨none, none, none, none, none, none, none, none, none⟩

/-- Pick the best candidate under a strict is-better relation,
first-wins on ties. -/
def pickBest (cands : List Event) (better : Event → Event → Bool) : Option Event :=
  cands.foldl
    (fun acc e =>
      match acc with
      | none => some e
      | some b => if better e b then some e else acc)
    none

/-- Greedy one-to-one matching engine shared by the modelled
strategies. -/
def matchGreedy : List Event → List Event → (Event → Event → Bool) →
    (Event → Event → Event → Bool) → List (Event × List Event)
  | [], _, _, _ => []
  | g :: gs, preds, elig, better =>
    match pickBest (preds.filter (elig g)) (better g) with
    | none => matchGreedy gs preds elig better
    | some p => (g, [p]) :: matchGreedy gs (preds.erase p) elig better

namespace EventMatcher

/-- Candidate label gate: same label unless cross-matching allowed. -/
def labelOK (allow_cross_matching : Bool) (g p : Event) : Bool :=
  allow_cross_matching || decide (g.label = p.label)

/-- Modelled from the spec: eligibility overlap above threshold,
selection earliest-starting. -/
def first_overlap (gt pred : List Event) (min_overlap : ℚ) (ax : Bool) :
    List (Event × List Event) :=
  matchGreedy gt pred
    (fun g p => labelOK ax g p && decide (min_overlap < overlapRaw g p))
    (fun _ a b => decide (a.startTime < b.startTime))

/-- Modelled from the spec: eligibility overlap above threshold,
selection latest-starting. -/
def last_overlap (gt pred : List Event) (min_overlap : ℚ) (ax : Bool) :
    List (Event × List Event) :=
  matchGreedy gt pred
    (fun g p => labelOK ax g p && decide (min_overlap < overlapRaw g p))
    (fun _ a b => decide (b.startTime < a.startTime))

/-- Modelled from the spec: maximal raw overlap, ties by earliest
start. -/
def max_overlap (gt pred : List Event) (min_overlap : ℚ) (ax : Bool) :
    List (Event × List Event) :=
  matchGreedy gt pred
    (fun g p => labelOK ax g p && decide (min_overlap < overlapRaw g p))
    (fun g a b => decide (overlapRaw g b < overlapRaw g a) ||
      (decide (overlapRaw g a = overlapRaw g b) && decide (a.startTime < b.startTime)))

/-- Modelled from the spec: greatest own duration among overlapping
candidates, ties by earliest start. -/
def longest_overlapping_event (gt pred : List Event) (min_overlap : ℚ) (ax : Bool) :
    List (Event × List Event) :=
  matchGreedy gt pred
    (fun g p => labelOK ax g p && decide (min_overlap < overlapRaw g p))
    (fun _ a b => decide (b.duration < a.duration) ||
      (decide (a.duration = b.duration) && decide (a.startTime < b.startTime)))

/-- Modelled from the spec: maximal intersection-over-union above the
threshold. -/
def iou (gt pred : List Event) (min_iou : ℚ) (ax : Bool) :
    List (Event × List Event) :=
  matchGreedy gt pred
    (fun g p => labelOK ax g p && decide (min_iou < iouQ g p))
    (fun g a b => decide (iouQ g b < iouQ g a))

/-- Modelled from the spec: onset difference within the threshold,
minimal magnitude. -/
def onset_difference (gt pred : List Event) (max_onset_difference : ℚ) (ax : Bool) :
    List (Event × List Event) :=
  matchGreedy gt pred
    (fun g p => labelOK ax g p && decide (|g.startTime - p.startTime| ≤ max_onset_difference))
    (fun g a b => decide (|g.startTime - a.startTime| < |g.startTime - b.startTime|))

/-- Modelled from the spec: offset difference within the threshold,
minimal magnitude. -/
def offset_difference (gt pred : List Event) (max_offset_difference : ℚ) (ax : Bool) :
    List (Event × List Event) :=
  matchGreedy gt pred
    (fun g p => labelOK ax g p && decide (|g.endTime - p.endTime| ≤ max_offset_difference))
    (fun g a b => decide (|g.endTime - a.endTime| < |g.endTime - b.endTime|))

/-- Modelled from the spec: both onset and offset differences within
their windows, minimal summed magnitude. -/
def window_based (gt pred : List Event) (max_onset_difference max_offset_difference : ℚ)
    (ax : Bool) : List (Event × List Event) :=
  matchGreedy gt pred
    (fun g p => labelOK ax g p &&
      decide (|g.startTime - p.startTime| ≤ max_onset_difference) &&
      decide (|g.endTime - p.endTime| ≤ max_offset_difference))
    (fun g a b => decide (|g.startTime - a.startTime| + |g.endTime - a.endTime| <
      |g.startTime - b.startTime| + |g.endTime - b.endTime|))

/-- Modelled from the spec: timing l2 norm within the threshold,
minimal norm (compared through squares to stay rational). -/
def l2_timing (gt pred : List Event) (max_l2 : ℚ) (ax : Bool) :
    List (Event × List Event) :=
  matchGreedy gt pred
    (fun g p => labelOK ax g p && decide (0 ≤ max_l2) && decide (l2sq g p ≤ max_l2 ^ 2))
    (fun g a b => decide (l2sq g a < l2sq g b))

/-- Modelled from the spec: the generic strategy passes the remaining
keywords through as a caller-supplied eligibility and selection pair. -/
def generic_matching (gt pred : List Event) (ax : Bool) (kw : MatchKwargs) :
    List (Event × List Event) :=
  matchGreedy gt pred
    (fun g p => labelOK ax g p && (kw.elig.getD (fun _ _ => true)) g p)
    (fun g a b => (kw.better.getD (fun _ _ _ => false)) g a b)

end EventMatcher

/- ## Match dispatcher (event_matching.py lines 12-118) -/

/-- The match function (event_matching.py lines 12-94): filter out
ignored labels, resolve the cross-matching flag from the boolean
parameter and its keyword aliases, and dispatch on the normalized
match_by string. Named matchEvents because match is a Lean keyword. -/
def matchEvents (ground_truth prediction : List Event) (match_by : String)
    (ignore_events : List EventLabelEnum) (allow_xmatch : Bool) (kw : MatchKwargs) :
    List (Event × List Event) :=
  let gt := ground_truth.filter fun e => !(ignore_events.contains e.label)
  let pred := prediction.filter fun e => !(ignore_events.contains e.label)
  let ax := allow_xmatch || kw.allow_xmatch.getD false || kw.allow_cross_match.getD false
  match strategyOf match_by with
  | .firstOverlap => EventMatcher.first_overlap gt pred (kw.min_overlap.getD 0) ax
  | .lastOverlap => EventMatcher.last_overlap gt pred (kw.min_overlap.getD 0) ax
  | .maxOverlap => EventMatcher.max_overlap gt pred (kw.min_overlap.getD 0) ax
  | .longestOverlap => EventMatcher.longest_overlapping_event gt pred (kw.min_overlap.getD 0) ax
  | .iou => EventMatcher.iou gt pred (kw.min_iou.getD 0) ax
  | .onsetDifference => EventMatcher.onset_difference gt pred (kw.max_onset_difference.getD 0) ax
  | .offsetDifference => EventMatcher.offset_difference gt pred (kw.max_offset_difference.getD 0) ax
  | .windowBased => EventMatcher.window_based gt pred (kw.max_onset_difference.getD 0) (kw.max_offset_difference.getD 0) ax
  | .l2Timing => EventMatcher.l2_timing gt pred (kw.max_l2.getD 0) ax
  | .generic => EventMatcher.generic_matching gt pred ax kw

/-- match_multiple (event_matching.py lines 97-118): apply match to
each named prediction source against the same ground truth; the tqdm
progress bar is controlled by verbose but the iterated items are
unchanged. -/
def match_multiple (ground_truth : List Event) (predictions : List (String × List Event))
    (match_by : String) (ignore_events : List EventLabelEnum) (allow_xmatch : Bool)
    (verbose : Bool) (kw : MatchKwargs) : List (String × List (Event × List Event)) :=
  (tqdm predictions verbose).map fun np =>
    (np.1, matchEvents ground_truth np.2 match_by ignore_events allow_xmatch kw)

/- ## Concrete fixtures used by witnesses and counterexamples -/

/-- A two-sample fixation event fixture. -/
def fixEv : Event :=
  ⟨EventLabelEnum.FIXATION, [0, 100], [Fl.nan, Fl.nan], [Fl.nan, Fl.nan],
   [Fl.nan, Fl.nan], Fl.nan, Fl.nan⟩

/-- A single-sample (zero-duration) event fixture at time 5. -/
def pointEv5 : Event :=
  ⟨EventLabelEnum.FIXATION, [5], [Fl.nan], [Fl.nan], [Fl.nan], Fl.nan, Fl.nan⟩

/-- A single-sample (zero-duration) event fixture at time 9. -/
def pointEv9 : Event :=
  ⟨EventLabelEnum.FIXATION, [9], [Fl.nan], [Fl.nan], [Fl.nan], Fl.nan, Fl.nan⟩

/-- A duration configuration fixture with bounds [0, 1] for every label. -/
def cfg01 : Config := fun _ => (Fl.fin 0, Fl.fin 1)

/-- The sorted event that constructing from timestamps [2, 1] yields. -/
def sortedEv : Event :=
  ⟨EventLabelEnum.FIXATION, [1, 2], [Fl.nan, Fl.nan], [Fl.nan, Fl.nan],
   [Fl.nan, Fl.nan], Fl.nan, Fl.nan⟩

/-- The invariant the spec asserts of the duration configuration: for
every label the stored bounds satisfy min_duration <= max_duration
(under Python float comparison). -/
def ConfigInvariant (cfg : Config) : Prop :=
  ∀ l, Fl.leF (cfg l).1 (cfg l).2 = true

/- ## Theorems -/

/-- C1: the match dispatcher sends every case/separator-normalized form
of "offset difference" to the generic fallback, not to the
offset-difference strategy: the branch on line 73 of event_matching.py
compares against the misspelled literal "offset max_onset_difference",
which no normalized input can equal, while the docstring promises that
"offset difference" selects the offset-difference strategy. Only the
bare "offset" reaches that strategy. -/
theorem C1_offset_difference_dispatch :
    strategyOf "offset difference" = Strategy.generic ∧
    strategyOf "offset-difference" = Strategy.generic ∧
    strategyOf "Offset_Difference" = Strategy.generic ∧
    normalizeMatchBy "offset-difference" = "offset difference" ∧
    normalizeMatchBy "Offset_Difference" = "offset difference" ∧
    strategyOf "offset" = Strategy.offsetDifference ∧
    (∀ gt pred ign ax kw, matchEvents gt pred "offset difference" ign ax kw =
      EventMatcher.generic_matching (gt.filter fun e => !(ign.contains e.label))
        (pred.filter fun e => !(ign.contains e.label))
        (ax || kw.allow_xmatch.getD false || kw.allow_cross_match.getD false) kw) := by
  refine ⟨by decide, by decide, by decide, by decide, by decide, by decide, ?_⟩
  intro gt pred ign ax kw
  have h : strategyOf "offset difference" = Strategy.generic := by decide
  simp only [matchEvents, h]

/-- C3: the contingency extraction returns p = number of positive
ground-truth events, n = total ground truth minus p, pp = number of
positive predicted events, and tp = number of matched pairs whose
predicted side is positive; tp depends only on the predicted side of
the mapping, so relabelling every ground-truth key leaves it
unchanged. -/
theorem C3_contingency_counts (gt pred : List Event) (matched : List (Event × Event))
    (pos : List EventLabelEnum) :
    extract_contingency_values gt pred matched pos =
      (gt.countP (fun e => pos.contains e.label),
       gt.length - gt.countP (fun e => pos.contains e.label),
       pred.countP (fun e => pos.contains e.label),
       (matched.map Prod.snd).countP (fun e => pos.contains e.label)) ∧
    (∀ f : Event → Event,
      (extract_contingency_values gt pred (matched.map fun pr => (f pr.1, pr.2)) pos).2.2.2 =
        (extract_contingency_values gt pred matched pos).2.2.2) := by
  constructor
  · simp [extract_contingency_values, List.countP_eq_length_filter]
  · intro f
    have h2 : (Prod.snd ∘ fun pr : Event × Event => (f pr.1, pr.2)) = Prod.snd :=
      funext fun pr => rfl
    simp [extract_contingency_values, List.map_map, h2]

/-- C4: constructing an event succeeds exactly when the four per-sample
arrays (after the nan defaults) have equal lengths and each calibration
scalar is either not-a-number or strictly positive; in particular a
not-a-number calibration scalar never causes failure. -/
theorem C4_constructor_validation (label : EventLabelEnum) (t : List ℚ)
    (x y pupil : Option (List Fl)) (vd ps : Fl) :
    (∃ e, Event.mk? label t x y pupil vd ps = Except.ok e) ↔
      ((t.length = (x.getD (t.map fun _ => Fl.nan)).length ∧
        (x.getD (t.map fun _ => Fl.nan)).length = (y.getD (t.map fun _ => Fl.nan)).length ∧
        (y.getD (t.map fun _ => Fl.nan)).length = (pupil.getD (t.map fun _ => Fl.nan)).length) ∧
       (vd.isNaN || vd.gt0) = true ∧ (ps.isNaN || ps.gt0) = true) := by
  unfold Event.mk?
  by_cases hlen : t.length = (x.getD (t.map fun _ => Fl.nan)).length ∧
      (x.getD (t.map fun _ => Fl.nan)).length = (y.getD (t.map fun _ => Fl.nan)).length ∧
      (y.getD (t.map fun _ => Fl.nan)).length = (pupil.getD (t.map fun _ => Fl.nan)).length
  · rw [if_neg (not_not_intro hlen)]
    by_cases hvd : (vd.isNaN || vd.gt0) = true
    · rw [if_neg (not_not_intro hvd)]
      by_cases hps : (ps.isNaN || ps.gt0) = true
      · rw [if_neg (not_not_intro hps)]
        exact iff_of_true ⟨_, rfl⟩ ⟨hlen, hvd, hps⟩
      · rw [if_pos hps]
        exact iff_of_false (fun ⟨e, h⟩ => Except.noConfusion h) (fun h => hps h.2.2)
    · rw [if_pos hvd]
      exact iff_of_false (fun ⟨e, h⟩ => Except.noConfusion h) (fun h => hvd h.2.1)
  · rw [if_pos hlen]
    exact iff_of_false (fun ⟨e, h⟩ => Except.noConfusion h) (fun h => hlen h.1)

/-- C7: the pairwise timing measures time_iou and time_l2 are symmetric
in their two operands (both events see the same raw overlap, the same
interval union, and the same squared onset and offset differences). -/
theorem C7_timing_symmetry (a b : Event) :
    a.time_iou b = b.time_iou a ∧ a.time_l2 b = b.time_l2 a := by
  constructor
  · unfold Event.time_iou
    rw [min_comm, max_comm (a.startTime), add_comm a.duration]
  · unfold Event.time_l2
    congr 1
    push_cast
    ring

/-- C10: the timing primitives are not total on zero-duration events:
a single-sample event has duration zero, so its normalized time_overlap
divides the raw overlap by zero and raises instead of returning the
not-a-number sentinel through a guarded branch, and for two
non-overlapping zero-duration events the interval union that time_iou
divides by is zero, so that call raises as well. -/
theorem C10_zero_duration_divisions (A B C D : Event) (hA : ∃ q, A.t = [q])
    (hC : C.duration = 0) (hD : D.duration = 0)
    (hdisj : C.endTime < D.startTime ∨ D.endTime < C.startTime) :
    A.duration = 0 ∧
    A.time_overlap B true = Except.error "ZeroDivisionError: float division by zero" ∧
    C.duration + D.duration - max 0 (min C.endTime D.endTime - max C.startTime D.startTime) = 0 ∧
    C.time_iou D = Except.error "ZeroDivisionError: float division by zero" := by
  obtain ⟨q, hq⟩ := hA
  have hAdur : A.duration = 0 := by
    simp [Event.duration, Event.startTime, Event.endTime, hq]
  have hCse : C.endTime = C.startTime := by
    have := hC
    unfold Event.duration at this
    linarith
  have hDse : D.endTime = D.startTime := by
    have := hD
    unfold Event.duration at this
    linarith
  have hover : max 0 (min C.endTime D.endTime - max C.startTime D.startTime) = 0 := by
    rcases hdisj with h | h
    · have h1 : min C.endTime D.endTime ≤ C.endTime := min_le_left _ _
      have h2 : D.startTime ≤ max C.startTime D.startTime := le_max_right _ _
      have : min C.endTime D.endTime - max C.startTime D.startTime ≤ 0 := by linarith
      exact max_eq_left this
    · have h1 : min C.endTime D.endTime ≤ D.endTime := min_le_right _ _
      have h2 : C.startTime ≤ max C.startTime D.startTime := le_max_left _ _
      have : min C.endTime D.endTime - max C.startTime D.startTime ≤ 0 := by linarith
      exact max_eq_left this
  refine ⟨hAdur, ?_, ?_, ?_⟩
  · unfold Event.time_overlap
    rw [if_pos rfl]
    unfold pyDivQ
    rw [hAdur, if_pos rfl]
  · rw [hover, hC, hD]
    ring
  · unfold Event.time_iou
    unfold pyDivQ
    rw [if_pos (by rw [hover, hC, hD]; ring)]

/-- Addition of two finite Fl values. -/
theorem Fl.add_fin (a b : ℚ) : Fl.fin a + Fl.fin b = Fl.fin (a + b) := rfl

/-- Addition absorbs a left not-a-number. -/
theorem Fl.nan_add (b : Fl) : Fl.nan + b = Fl.nan := rfl

/-- Addition absorbs a right not-a-number. -/
theorem Fl.add_nan (a : Fl) : a + Fl.nan = Fl.nan := by cases a <;> rfl

/-- Multiplication of two finite Fl values. -/
theorem Fl.mul_fin (a b : ℚ) : Fl.fin a * Fl.fin b = Fl.fin (a * b) := rfl

/-- C2: precision_recall_f1 returns recall tp/p (not-a-number when
p = 0), precision tp/pp (not-a-number when pp = 0) and the guarded f1
combination, never raising for zero denominators; f1 is not-a-number
whenever precision and recall are both not-a-number or both zero, and
whenever p = 0 (so a numeric f1 indeed requires a defined nonzero
precision). -/
theorem C2_precision_recall_f1 (gt pred : List Event) (matched : List (Event × Event))
    (pos : List EventLabelEnum) :
    ∃ P R F, precision_recall_f1 gt pred matched pos = Except.ok (P, R, F) ∧
      ((0 < (extract_contingency_values gt pred matched pos).1 →
        R = Fl.fin (((extract_contingency_values gt pred matched pos).2.2.2 : ℚ) /
          ((extract_contingency_values gt pred matched pos).1 : ℚ))) ∧
       ((extract_contingency_values gt pred matched pos).1 = 0 → R = Fl.nan) ∧
       (0 < (extract_contingency_values gt pred matched pos).2.2.1 →
        P = Fl.fin (((extract_contingency_values gt pred matched pos).2.2.2 : ℚ) /
          ((extract_contingency_values gt pred matched pos).2.2.1 : ℚ))) ∧
       ((extract_contingency_values gt pred matched pos).2.2.1 = 0 → P = Fl.nan) ∧
       (∀ a b : ℚ, P = Fl.fin a → R = Fl.fin b → 0 < a + b →
        F = Fl.fin (2 * (a * b) / (a + b))) ∧
       (P = Fl.nan ∧ R = Fl.nan → F = Fl.nan) ∧
       (P = Fl.fin 0 ∧ R = Fl.fin 0 → F = Fl.nan) ∧
       ((extract_contingency_values gt pred matched pos).1 = 0 → F = Fl.nan)) := by
  set c := extract_contingency_values gt pred matched pos with hc
  by_cases hp : 0 < c.1
  · by_cases hpp : 0 < c.2.2.1
    · set a := ((c.2.2.2 : ℚ) / (c.2.2.1 : ℚ)) with ha
      set b := ((c.2.2.2 : ℚ) / (c.1 : ℚ)) with hb
      by_cases hs : 0 < a + b
      · refine ⟨Fl.fin a, Fl.fin b, Fl.fin (2 * (a * b) / (a + b)), ?_, ?_⟩
        · unfold precision_recall_f1
          rw [← hc]
          simp only [if_pos hp, if_pos hpp, ← ha, ← hb, Fl.add_fin, Fl.mul_fin, Fl.gt0]
          rw [if_pos (by simpa using hs)]
          simp only [pyDivFl]
          rw [if_neg (ne_of_gt hs)]
          rfl
        · refine ⟨fun _ => rfl, fun h0 => absurd h0 (Nat.pos_iff_ne_zero.mp hp),
            fun _ => rfl, fun h0 => absurd h0 (Nat.pos_iff_ne_zero.mp hpp),
            ?_, ?_, ?_, fun h0 => absurd h0 (Nat.pos_iff_ne_zero.mp hp)⟩
          · intro a2 b2 hP hR _
            have haa : a = a2 := by injection hP
            have hbb : b = b2 := by injection hR
            subst haa
            subst hbb
            rfl
          · rintro ⟨hP, -⟩
            exact absurd hP (by simp)
          · rintro ⟨hP, hR⟩
            have ha0 : a = 0 := by injection hP
            have hb0 : b = 0 := by injection hR
            rw [ha0, hb0] at hs
            simp at hs
      · refine ⟨Fl.fin a, Fl.fin b, Fl.nan, ?_, ?_⟩
        · unfold precision_recall_f1
          rw [← hc]
          simp only [if_pos hp, if_pos hpp, ← ha, ← hb, Fl.add_fin, Fl.gt0]
          rw [if_neg (by simpa using hs)]
          rfl
        · refine ⟨fun _ => rfl, fun h0 => absurd h0 (Nat.pos_iff_ne_zero.mp hp),
            fun _ => rfl, fun h0 => absurd h0 (Nat.pos_iff_ne_zero.mp hpp),
            ?_, fun _ => rfl, fun _ => rfl, fun _ => rfl⟩
          intro a2 b2 hP hR hs2
          have haa : a = a2 := by injection hP
          have hbb : b = b2 := by injection hR
          rw [← haa, ← hbb] at hs2
          exact absurd hs2 hs
    · refine ⟨Fl.nan, Fl.fin ((c.2.2.2 : ℚ) / (c.1 : ℚ)), Fl.nan, ?_, ?_⟩
      · unfold precision_recall_f1
        rw [← hc]
        simp only [if_pos hp, if_neg hpp, Fl.nan_add, Fl.gt0]
        rfl
      · refine ⟨fun _ => rfl, fun h0 => absurd h0 (Nat.pos_iff_ne_zero.mp hp),
          fun hcon => absurd hcon hpp, fun _ => rfl,
          ?_, fun _ => rfl, fun _ => rfl, fun _ => rfl⟩
        intro a2 b2 hP hR hs2
        exact absurd hP (by simp)
  · by_cases hpp : 0 < c.2.2.1
    · refine ⟨Fl.fin ((c.2.2.2 : ℚ) / (c.2.2.1 : ℚ)), Fl.nan, Fl.nan, ?_, ?_⟩
      · unfold precision_recall_f1
        rw [← hc]
        simp only [if_neg hp, if_pos hpp, Fl.add_nan, Fl.gt0]
        rfl
      · refine ⟨fun hcon => absurd hcon hp, fun _ => rfl,
          fun _ => rfl, fun h0 => absurd h0 (Nat.pos_iff_ne_zero.mp hpp),
          ?_, fun _ => rfl, fun _ => rfl, fun _ => rfl⟩
        intro a2 b2 hP hR hs2
        exact absurd hR (by simp)
    · refine ⟨Fl.nan, Fl.nan, Fl.nan, ?_, ?_⟩
      · unfold precision_recall_f1
        rw [← hc]
        simp only [if_neg hp, if_neg hpp, Fl.nan_add, Fl.gt0]
        rfl
      · refine ⟨fun hcon => absurd hcon hp, fun _ => rfl,
          fun hcon => absurd hcon hpp, fun _ => rfl,
          ?_, fun _ => rfl, fun _ => rfl, fun _ => rfl⟩
        intro a2 b2 hP hR hs2
        exact absurd hP (by simp)

/-- C2 witness: with no ground-truth events (p = 0) but one positive
predicted event, the function still returns a triple, with recall and
f1 both not-a-number. -/
theorem C2_precision_recall_f1_witness :
    ∃ P R F, precision_recall_f1 [] [fixEv] [] [EventLabelEnum.FIXATION] =
      Except.ok (P, R, F) ∧ R = Fl.nan ∧ F = Fl.nan := by
  obtain ⟨P, R, F, hok, h1, h2, h3, h4, h5, h6, h7, h8⟩ :=
    C2_precision_recall_f1 [] [fixEv] [] [EventLabelEnum.FIXATION]
  exact ⟨P, R, F, hok, h2 (by decide), h8 (by decide)⟩

/-- One setter step keeps the invariant when the submitted bound is not
the not-a-number sentinel (a failed update leaves the state as it was). -/
theorem applyUpdate_invariant (cfg : Config) (u : DurationUpdate)
    (hinv : ConfigInvariant cfg) (hnan : u.value.isNaN = false) :
    ConfigInvariant (applyUpdate cfg u) := by
  cases u with
  | setMin label v =>
    simp only [applyUpdate, set_min_duration]
    by_cases h1 : v.lt0 = true
    · rw [if_pos h1]
      exact hinv
    · rw [if_neg h1]
      by_cases h2 : Fl.gtF v (cfg label).2 = true
      · rw [if_pos h2]
        exact hinv
      · rw [if_neg h2]
        intro l
        by_cases hl : l = label
        · subst hl
          simp only [if_pos rfl]
          obtain ⟨q, rfl⟩ : ∃ q, v = Fl.fin q := by
            cases v with
            | nan => exact absurd hnan (by simp [DurationUpdate.value, Fl.isNaN])
            | fin q => exact ⟨q, rfl⟩
          have hinvl := hinv l
          cases hmx : (cfg l).2 with
          | nan => rw [hmx] at hinvl; cases (cfg l).1 <;> simp [Fl.leF] at hinvl
          | fin mx =>
            rw [hmx] at h2
            simp only [Fl.gtF, decide_eq_true_eq] at h2
            exact decide_eq_true (le_of_not_lt h2)
        · simp only [if_neg hl]
          exact hinv l
  | setMax label v =>
    simp only [applyUpdate, set_max_duration]
    by_cases h1 : v.lt0 = true
    · rw [if_pos h1]
      exact hinv
    · rw [if_neg h1]
      by_cases h2 : Fl.ltF v (cfg label).1 = true
      · rw [if_pos h2]
        exact hinv
      · rw [if_neg h2]
        intro l
        by_cases hl : l = label
        · subst hl
          simp only [if_pos rfl]
          obtain ⟨q, rfl⟩ : ∃ q, v = Fl.fin q := by
            cases v with
            | nan => exact absurd hnan (by simp [DurationUpdate.value, Fl.isNaN])
            | fin q => exact ⟨q, rfl⟩
          have hinvl := hinv l
          cases hmn : (cfg l).1 with
          | nan => rw [hmn] at hinvl; simp [Fl.leF] at hinvl
          | fin mn =>
            rw [hmn] at h2
            simp only [Fl.ltF, decide_eq_true_eq] at h2
            exact decide_eq_true (le_of_not_lt h2)
        · simp only [if_neg hl]
          exact hinv l

/-- Invariant preservation over a whole sequence of setter calls with
non-nan bounds. -/
theorem applyUpdates_invariant (us : List DurationUpdate) : ∀ cfg : Config,
    ConfigInvariant cfg → (∀ u ∈ us, (DurationUpdate.value u).isNaN = false) →
    ConfigInvariant (applyUpdates cfg us) := by
  induction us with
  | nil => exact fun cfg h _ => h
  | cons u rest ih =>
    intro cfg hinv hnan
    exact ih (applyUpdate cfg u)
      (applyUpdate_invariant cfg u hinv (hnan u (List.mem_cons_self u rest)))
      (fun u2 hu2 => hnan u2 (List.mem_cons_of_mem u hu2))

/-- C5 counterexample: starting from a configuration satisfying
min_duration <= max_duration for every label, the call
set_min_duration(nan) succeeds (a not-a-number bound is neither
negative nor greater than max_duration under Python comparison), yet
the resulting configuration no longer satisfies
min_duration <= max_duration for the updated label. -/
theorem C5_nan_bound_counterexample :
    (∀ _l, Fl.leF (cfg01 _l).1 (cfg01 _l).2 = true) ∧
    (set_min_duration cfg01 EventLabelEnum.FIXATION Fl.nan).toOption.isSome = true ∧
    Fl.leF ((((set_min_duration cfg01 EventLabelEnum.FIXATION Fl.nan).toOption.getD cfg01)
        EventLabelEnum.FIXATION).1)
      ((((set_min_duration cfg01 EventLabelEnum.FIXATION Fl.nan).toOption.getD cfg01)
        EventLabelEnum.FIXATION).2) = false :=
  ⟨fun _l => rfl, rfl, rfl⟩

/-- C5 (amended): both setters fail with a ValidationError on a
negative bound or on a bound that would invert the min/max relation
(leaving the configuration unchanged, as applyUpdate records), and
after every sequence of successful updates whose bounds are not the
not-a-number sentinel the per-label configuration satisfies
min_duration <= max_duration; a nan bound is accepted by the setters
and breaks that relation, as the counterexample shows. -/
theorem C5_duration_setter_validation (cfg : Config) (us : List DurationUpdate)
    (hinv : ConfigInvariant cfg)
    (hnan : ∀ u ∈ us, (DurationUpdate.value u).isNaN = false) :
    ConfigInvariant (applyUpdates cfg us) ∧
    (∀ label v, Fl.lt0 v = true →
      ∃ msg, set_min_duration cfg label v = Except.error msg) ∧
    (∀ label v, Fl.lt0 v = true →
      ∃ msg, set_max_duration cfg label v = Except.error msg) ∧
    (∀ label v, Fl.gtF v (cfg label).2 = true →
      ∃ msg, set_min_duration cfg label v = Except.error msg) ∧
    (∀ label v, Fl.ltF v (cfg label).1 = true →
      ∃ msg, set_max_duration cfg label v = Except.error msg) := by
  refine ⟨applyUpdates_invariant us cfg hinv hnan, ?_, ?_, ?_, ?_⟩
  · intro label v hv
    exact ⟨_, by unfold set_min_duration; rw [if_pos hv]⟩
  · intro label v hv
    exact ⟨_, by unfold set_max_duration; rw [if_pos hv]⟩
  · intro label v hv
    by_cases h1 : Fl.lt0 v = true
    · exact ⟨_, by unfold set_min_duration; rw [if_pos h1]⟩
    · exact ⟨_, by unfold set_min_duration; rw [if_neg h1, if_pos hv]⟩
  · intro label v hv
    by_cases h1 : Fl.lt0 v = true
    · exact ⟨_, by unfold set_max_duration; rw [if_pos h1]⟩
    · exact ⟨_, by unfold set_max_duration; rw [if_neg h1, if_pos hv]⟩

/-- C5 witness: from the [0, 1] fixture, a max update to 5 then a min
update to 2 both succeed and the invariant still holds; a negative
bound is rejected by both setters. -/
theorem C5_duration_setter_validation_witness :
    ConfigInvariant (applyUpdates cfg01
      [DurationUpdate.setMax EventLabelEnum.FIXATION (Fl.fin 5),
       DurationUpdate.setMin EventLabelEnum.FIXATION (Fl.fin 2)]) ∧
    (∃ msg, set_min_duration cfg01 EventLabelEnum.FIXATION (Fl.fin (-1)) =
      Except.error msg) := by
  have h := C5_duration_setter_validation cfg01
    [DurationUpdate.setMax EventLabelEnum.FIXATION (Fl.fin 5),
     DurationUpdate.setMin EventLabelEnum.FIXATION (Fl.fin 2)]
    (fun l => rfl) (by decide)
  exact ⟨h.1, h.2.1 EventLabelEnum.FIXATION (Fl.fin (-1)) (by decide)⟩

/-- Recombining the four projections of a sample list gives it back. -/
theorem zip4_proj (l : List Sample) :
    zip4 (l.map fun s => s.1) (l.map fun s => s.2.1) (l.map fun s => s.2.2.1)
      (l.map fun s => s.2.2.2) = l := by
  induction l with
  | nil => rfl
  | cons a t ih => simp [zip4, ih]

/-- The projections of a row-wise zip of four equal-length arrays are
those arrays. -/
theorem zip4_maps : ∀ (t : List ℚ) (x y p : List Fl),
    t.length = x.length → x.length = y.length → y.length = p.length →
    (zip4 t x y p).map (fun s => s.1) = t ∧ (zip4 t x y p).map (fun s => s.2.1) = x ∧
    (zip4 t x y p).map (fun s => s.2.2.1) = y ∧
    (zip4 t x y p).map (fun s => s.2.2.2) = p := by
  intro t
  induction t with
  | nil =>
    intro x y p h1 h2 h3
    obtain rfl : x = [] := List.length_eq_zero.mp h1.symm
    obtain rfl : y = [] := List.length_eq_zero.mp h2.symm
    obtain rfl : p = [] := List.length_eq_zero.mp h3.symm
    exact ⟨rfl, rfl, rfl, rfl⟩
  | cons a t2 ih =>
    intro x y p h1 h2 h3
    cases x with
    | nil => simp at h1
    | cons b xs =>
      cases y with
      | nil => simp at h2
      | cons c ys =>
        cases p with
        | nil => simp at h3
        | cons d ps =>
          obtain ⟨m1, m2, m3, m4⟩ := ih xs ys ps (by simpa using h1)
            (by simpa using h2) (by simpa using h3)
          simp [zip4, m1, m2, m3, m4]

/-- The default-valued last element of a list is the default or a
member of the list. -/
theorem mem_getLastD (a : ℚ) (t : List ℚ) : t.getLastD a ∈ a :: t := by
  induction t generalizing a with
  | nil => exact List.mem_cons_self a []
  | cons b t2 ih =>
    rw [List.getLastD_cons]
    exact List.mem_cons_of_mem a (ih b)

/-- In a sorted list the default-valued head is below every member. -/
theorem sorted_headD_le {l : List ℚ} (hs : l.Sorted (· ≤ ·)) :
    ∀ q ∈ l, l.headD 0 ≤ q := by
  cases l with
  | nil => intro q hq; cases hq
  | cons a t =>
    intro q hq
    rcases List.mem_cons.mp hq with rfl | hq2
    · exact le_refl q
    · exact (List.sorted_cons.mp hs).1 q hq2

/-- In a sorted cons cell every member is below the default-valued
last element. -/
theorem sorted_le_getLastD : ∀ (t : List ℚ) (a : ℚ), (a :: t).Sorted (· ≤ ·) →
    ∀ q ∈ a :: t, q ≤ t.getLastD a := by
  intro t
  induction t with
  | nil =>
    intro a _ q hq
    rcases List.mem_cons.mp hq with rfl | h
    · exact le_refl q
    · cases h
  | cons b t2 ih =>
    intro a hs q hq
    have hs2 : (b :: t2).Sorted (· ≤ ·) := (List.sorted_cons.mp hs).2
    rw [List.getLastD_cons]
    rcases List.mem_cons.mp hq with rfl | hq2
    · exact le_trans ((List.sorted_cons.mp hs).1 _ (mem_getLastD b t2))
        (le_refl _)
    · exact ih b hs2 q hq2

/-- The default-valued head of a non-empty list is a member. -/
theorem headD_mem {l : List ℚ} (h : l ≠ []) : l.headD 0 ∈ l := by
  cases l with
  | nil => exact absurd rfl h
  | cons a t => exact List.mem_cons_self a t

/-- The default-valued last element of a non-empty list is a member. -/
theorem getLastD_mem {l : List ℚ} (h : l ≠ []) : l.getLastD 0 ∈ l := by
  cases l with
  | nil => exact absurd rfl h
  | cons a t =>
    rw [List.getLastD_cons]
    exact mem_getLastD a t

/-- Projecting the timestamps of a time-sorted sample list gives a
sorted timestamp list. -/
theorem sorted_map_fst {l : List Sample} (h : l.Sorted sampleLE) :
    (l.map fun s => s.1).Sorted (· ≤ ·) :=
  List.Pairwise.map _ (fun _ _ hab => hab) h

/-- C6: after a successful construction the stored samples are the
input samples permuted into ascending time order, start_time is the
earliest input timestamp, end_time the latest, start_time <= end_time,
and the duration is non-negative. -/
theorem C6_construction_sorting (label : EventLabelEnum) (t : List ℚ)
    (x y pupil : Option (List Fl)) (vd ps : Fl) (e : Event)
    (h : Event.mk? label t x y pupil vd ps = Except.ok e) :
    e.t.Sorted (· ≤ ·) ∧
    e.samples.Perm (inputSamples t x y pupil) ∧
    e.t.Perm t ∧
    (t ≠ [] → e.startTime ∈ t ∧ (∀ q ∈ t, e.startTime ≤ q) ∧
      e.endTime ∈ t ∧ (∀ q ∈ t, q ≤ e.endTime)) ∧
    e.startTime ≤ e.endTime ∧ 0 ≤ e.duration := by
  unfold Event.mk? at h
  dsimp only [] at h
  split at h
  · exact Except.noConfusion h
  · split at h
    · exact Except.noConfusion h
    · split at h
      · exact Except.noConfusion h
      · rename_i hlenn hvdn hpsn
        have hlen := not_not.mp hlenn
        injection h with h2
        subst h2
        obtain ⟨m1, m2, m3, m4⟩ := zip4_maps t (x.getD (t.map fun _ => Fl.nan))
          (y.getD (t.map fun _ => Fl.nan)) (pupil.getD (t.map fun _ => Fl.nan))
          hlen.1 hlen.2.1 hlen.2.2
        have hsortrows : (List.insertionSort sampleLE (zip4 t (x.getD (t.map fun _ => Fl.nan))
            (y.getD (t.map fun _ => Fl.nan)) (pupil.getD (t.map fun _ => Fl.nan)))).Sorted
            sampleLE := List.sorted_insertionSort sampleLE _
        have hpermrows := List.perm_insertionSort sampleLE (zip4 t (x.getD (t.map fun _ => Fl.nan))
          (y.getD (t.map fun _ => Fl.nan)) (pupil.getD (t.map fun _ => Fl.nan)))
        have hsortT : (List.map (fun s => s.1) (List.insertionSort sampleLE
            (zip4 t (x.getD (t.map fun _ => Fl.nan)) (y.getD (t.map fun _ => Fl.nan))
            (pupil.getD (t.map fun _ => Fl.nan))))).Sorted (· ≤ ·) :=
          sorted_map_fst hsortrows
        have hpermT : (List.map (fun s => s.1) (List.insertionSort sampleLE
            (zip4 t (x.getD (t.map fun _ => Fl.nan)) (y.getD (t.map fun _ => Fl.nan))
            (pupil.getD (t.map fun _ => Fl.nan))))).Perm t := by
          have := hpermrows.map (fun s : Sample => s.1)
          rwa [m1] at this
        refine ⟨hsortT, ?_, hpermT, ?_, ?_, ?_⟩
        · show (zip4 _ _ _ _).Perm _
          rw [zip4_proj]
          exact hpermrows
        · intro ht
          have hne : (List.map (fun s : Sample => s.1) (List.insertionSort sampleLE
              (zip4 t (x.getD (t.map fun _ => Fl.nan)) (y.getD (t.map fun _ => Fl.nan))
              (pupil.getD (t.map fun _ => Fl.nan))))) ≠ [] := by
            intro hnil
            rw [hnil] at hpermT
            exact ht hpermT.symm.eq_nil
          refine ⟨hpermT.mem_iff.mp (headD_mem hne), ?_,
            hpermT.mem_iff.mp (getLastD_mem hne), ?_⟩
          · intro q hq
            exact sorted_headD_le hsortT q (hpermT.mem_iff.mpr hq)
          · intro q hq
            have hq2 := hpermT.mem_iff.mpr hq
            revert hq2
            cases hl : (List.map (fun s : Sample => s.1) (List.insertionSort sampleLE
                (zip4 t (x.getD (t.map fun _ => Fl.nan)) (y.getD (t.map fun _ => Fl.nan))
                (pupil.getD (t.map fun _ => Fl.nan))))) with
            | nil => intro hq2; cases hq2
            | cons a t2 =>
              intro hq2
              show q ≤ (a :: t2).getLastD 0
              rw [List.getLastD_cons]
              exact sorted_le_getLastD t2 a (hl ▸ hsortT) q hq2
        · show Event.startTime _ ≤ Event.endTime _
          unfold Event.startTime Event.endTime
          cases hl : (List.map (fun s : Sample => s.1) (List.insertionSort sampleLE
              (zip4 t (x.getD (t.map fun _ => Fl.nan)) (y.getD (t.map fun _ => Fl.nan))
              (pupil.getD (t.map fun _ => Fl.nan))))) with
          | nil => exact le_refl 0
          | cons a t2 =>
            show (a :: t2).headD 0 ≤ (a :: t2).getLastD 0
            rw [List.getLastD_cons]
            exact sorted_le_getLastD t2 a (hl ▸ hsortT) a (List.mem_cons_self a t2)
        · show 0 ≤ Event.duration _
          unfold Event.duration Event.startTime Event.endTime
          rw [sub_nonneg]
          cases hl : (List.map (fun s : Sample => s.1) (List.insertionSort sampleLE
              (zip4 t (x.getD (t.map fun _ => Fl.nan)) (y.getD (t.map fun _ => Fl.nan))
              (pupil.getD (t.map fun _ => Fl.nan))))) with
          | nil => exact le_refl 0
          | cons a t2 =>
            show (a :: t2).headD 0 ≤ (a :: t2).getLastD 0
            rw [List.getLastD_cons]
            exact sorted_le_getLastD t2 a (hl ▸ hsortT) a (List.mem_cons_self a t2)

/-- C6 witness: constructing from timestamps given in the order [2, 1]
succeeds and yields the time-sorted event fixture, whose invariants
the construction theorem then delivers. -/
theorem C6_construction_sorting_witness :
    sortedEv.t.Sorted (· ≤ ·) ∧
    sortedEv.samples.Perm (inputSamples [2, 1] none none none) ∧
    sortedEv.t.Perm [2, 1] ∧
    sortedEv.startTime ≤ sortedEv.endTime ∧ 0 ≤ sortedEv.duration := by
  have h : Event.mk? EventLabelEnum.FIXATION [2, 1] none none none Fl.nan Fl.nan =
      Except.ok sortedEv := by rfl
  obtain ⟨h1, h2, h3, _h4, h5, h6⟩ :=
    C6_construction_sorting EventLabelEnum.FIXATION [2, 1] none none none Fl.nan Fl.nan
      sortedEv h
  exact ⟨h1, h2, h3, h5, h6⟩

/-- C10 witness: a single-sample event has zero duration and its
normalized overlap against any event raises, and two disjoint
single-sample events drive time_iou into a zero-union division that
raises. -/
theorem C10_zero_duration_divisions_witness :
    pointEv5.duration = 0 ∧
    pointEv5.time_overlap fixEv true =
      Except.error "ZeroDivisionError: float division by zero" ∧
    pointEv5.duration + pointEv9.duration -
      max 0 (min pointEv5.endTime pointEv9.endTime -
        max pointEv5.startTime pointEv9.startTime) = 0 ∧
    pointEv5.time_iou pointEv9 =
      Except.error "ZeroDivisionError: float division by zero" :=
  C10_zero_duration_divisions pointEv5 fixEv pointEv5 pointEv9 ⟨5, rfl⟩
    (by show (5 : ℚ) - 5 = 0; norm_num) (by show (9 : ℚ) - 9 = 0; norm_num)
    (Or.inl (by show (5 : ℚ) < 9; norm_num))

/-- C8: the feature differ normalizes the requested name before
dispatch, raises ValueError exactly on names whose normalized form is
unsupported, returns for the onset feature one flat entry
gt.start_time - pred.start_time per matched pair in mapping order, and
the single-name entry point is the impl result; the supported name
center_pixel_distance, however, raises AttributeError on any non-empty
mapping because BaseEvent defines no center_distance. -/
theorem C8_feature_normalization_dispatch :
    (∀ f : String, calculateImpl [] f =
      (if supportedFeatures.contains (normalizeFeature f) then Except.ok []
       else Except.error ("Unknown feature: " ++ f))) ∧
    (∀ matched : List (Event × Event), calculateImpl matched "onset" =
      Except.ok (matched.map fun gp =>
        FVal.fin ((gp.1.startTime - gp.2.startTime : ℚ) : ℝ))) ∧
    (∀ (matched : List (Event × Event)) (f : String) (v : Bool),
      calculate matched (Sum.inl f) v = (calculateImpl matched f).map Sum.inl) ∧
    calculateImpl [(fixEv, fixEv)] "center_pixel_distance" =
      Except.error "AttributeError: BaseEvent object has no attribute center_distance" := by
  refine ⟨?_, ?_, ?_, ?_⟩
  · intro f
    unfold calculateImpl
    dsimp only []
    by_cases h1 : normalizeFeature f = "onset"
    · rw [if_pos h1, h1,
        if_pos (by decide : supportedFeatures.contains "onset" = true)]
      rfl
    · rw [if_neg h1]
      by_cases h2 : normalizeFeature f = "offset"
      · rw [if_pos h2, h2,
          if_pos (by decide : supportedFeatures.contains "offset" = true)]
        rfl
      · rw [if_neg h2]
        by_cases h3 : normalizeFeature f = "duration"
        · rw [if_pos h3, h3,
            if_pos (by decide : supportedFeatures.contains "duration" = true)]
          rfl
        · rw [if_neg h3]
          by_cases h4 : normalizeFeature f = "amplitude"
          · rw [if_pos h4, h4,
              if_pos (by decide : supportedFeatures.contains "amplitude" = true)]
            rfl
          · rw [if_neg h4]
            by_cases h5 : normalizeFeature f = "azimuth"
            · rw [if_pos h5, h5,
                if_pos (by decide : supportedFeatures.contains "azimuth" = true)]
              rfl
            · rw [if_neg h5]
              by_cases h6 : normalizeFeature f = "center_pixel_distance"
              · rw [if_pos h6, h6,
                  if_pos (by decide :
                    supportedFeatures.contains "center_pixel_distance" = true)]
                rfl
              · rw [if_neg h6]
                by_cases h7 : normalizeFeature f = "time_overlap"
                · rw [if_pos h7, h7,
                    if_pos (by decide :
                      supportedFeatures.contains "time_overlap" = true)]
                  rfl
                · rw [if_neg h7]
                  by_cases h8 : normalizeFeature f = "time_iou"
                  · rw [if_pos h8, h8,
                      if_pos (by decide :
                        supportedFeatures.contains "time_iou" = true)]
                    rfl
                  · rw [if_neg h8]
                    by_cases h9 : normalizeFeature f = "time_l2"
                    · rw [if_pos h9, h9,
                        if_pos (by decide :
                          supportedFeatures.contains "time_l2" = true)]
                      rfl
                    · rw [if_neg h9]
                      have hcontains :
                          supportedFeatures.contains (normalizeFeature f) = false := by
                        simp [supportedFeatures, h1, h2, h3, h4, h5, h6, h7, h8, h9]
                      rw [hcontains]
                      rfl
  · intro matched
    unfold calculateImpl
    dsimp only []
    rw [if_pos (show normalizeFeature "onset" = "onset" from by decide)]
  · intro matched f v
    rfl
  · unfold calculateImpl
    dsimp only []
    rw [if_neg (show ¬normalizeFeature "center_pixel_distance" = "onset" from by decide),
      if_neg (show ¬normalizeFeature "center_pixel_distance" = "offset" from by decide),
      if_neg (show ¬normalizeFeature "center_pixel_distance" = "duration" from by decide),
      if_neg (show ¬normalizeFeature "center_pixel_distance" = "amplitude" from by decide),
      if_neg (show ¬normalizeFeature "center_pixel_distance" = "azimuth" from by decide),
      if_pos (show normalizeFeature "center_pixel_distance" = "center_pixel_distance"
        from by decide)]
    rfl

/-- Looking a key up in a per-entry transformed association list is the
transformed lookup. -/
theorem lookup_map_value {α β : Type} (l : List (String × α)) (f : String → α → β)
    (k : String) :
    List.lookup k (l.map fun p => (p.1, f p.1 p.2)) = (List.lookup k l).map (f k) := by
  induction l with
  | nil => rfl
  | cons a t ih =>
    obtain ⟨a1, a2⟩ := a
    simp only [List.map_cons]
    rw [List.lookup_cons, List.lookup_cons]
    cases hk : k == a1 with
    | true =>
      have hk2 : k = a1 := by simpa using hk
      subst hk2
      rfl
    | false => exact ih

/-- With duplicate-free keys, lookup is invariant under permutation of
an association list. -/
theorem lookup_perm {α : Type} {l1 l2 : List (String × α)} (h : l1.Perm l2) :
    (l1.map Prod.fst).Nodup → ∀ k, List.lookup k l1 = List.lookup k l2 := by
  induction h with
  | nil => exact fun _ _ => rfl
  | cons x h2 ih =>
    intro hn k
    obtain ⟨x1, x2⟩ := x
    rw [List.lookup_cons, List.lookup_cons]
    cases hk : k == x1 with
    | true => rfl
    | false =>
      simp only [List.map_cons, List.nodup_cons] at hn
      exact ih hn.2 k
  | swap x y l =>
    intro hn k
    obtain ⟨x1, x2⟩ := x
    obtain ⟨y1, y2⟩ := y
    have hxy : ¬(y1 = x1) := by
      simp only [List.map_cons, List.nodup_cons, List.mem_cons] at hn
      exact fun hcon => hn.1 (Or.inl hcon)
    rw [List.lookup_cons, List.lookup_cons, List.lookup_cons, List.lookup_cons]
    cases hky : k == y1 with
    | true =>
      cases hkx : k == x1 with
      | true =>
        exact absurd ((show k = y1 by simpa using hky).symm.trans
          (show k = x1 by simpa using hkx)) hxy
      | false => rfl
    | false =>
      cases hkx : k == x1 with
      | true => rfl
      | false => rfl
  | trans h1 h2 ih1 ih2 =>
    intro hn k
    rw [ih1 hn k, ih2 (((h1.map Prod.fst).nodup_iff).mp hn) k]

/-- C9: match_multiple applies match independently per named source
against the same ground truth (the lookup of any source name is the
plain match result for that source), is unaffected by the cosmetic
verbose flag, and with duplicate-free source names is unaffected by the
order in which the sources are listed. -/
theorem C9_match_multiple_independence (gt : List Event)
    (preds : List (String × List Event)) (mb : String)
    (ign : List EventLabelEnum) (ax : Bool) (kw : MatchKwargs) :
    (∀ name v, List.lookup name (match_multiple gt preds mb ign ax v kw) =
      (List.lookup name preds).map fun p => matchEvents gt p mb ign ax kw) ∧
    (∀ v1 v2, match_multiple gt preds mb ign ax v1 kw =
      match_multiple gt preds mb ign ax v2 kw) ∧
    (∀ preds2, preds.Perm preds2 → (preds.map Prod.fst).Nodup →
      ∀ name v, List.lookup name (match_multiple gt preds mb ign ax v kw) =
        List.lookup name (match_multiple gt preds2 mb ign ax v kw)) := by
  refine ⟨?_, ?_, ?_⟩
  · intro name v
    exact lookup_map_value preds (fun _ p => matchEvents gt p mb ign ax kw) name
  · intro v1 v2
    rfl
  · intro preds2 hperm hnodup name v
    have e1 : List.lookup name (match_multiple gt preds mb ign ax v kw) =
        (List.lookup name preds).map fun p => matchEvents gt p mb ign ax kw :=
      lookup_map_value preds (fun _ p => matchEvents gt p mb ign ax kw) name
    have e2 : List.lookup name (match_multiple gt preds2 mb ign ax v kw) =
        (List.lookup name preds2).map fun p => matchEvents gt p mb ign ax kw :=
      lookup_map_value preds2 (fun _ p => matchEvents gt p mb ign ax kw) name
    rw [e1, e2, lookup_perm hperm hnodup name]

/-- C9 witness: swapping two concretely named sources leaves every
lookup of the combined matching result unchanged. -/
theorem C9_match_multiple_independence_witness :
    List.lookup "a" (match_multiple [] [("a", [fixEv]), ("b", [])] "iou" [] false true
      MatchKwargs.empty) =
    List.lookup "a" (match_multiple [] [("b", []), ("a", [fixEv])] "iou" [] false true
      MatchKwargs.empty) :=
  (C9_match_multiple_independence [] [("a", [fixEv]), ("b", [])] "iou" [] false
      MatchKwargs.empty).2.2 [("b", []), ("a", [fixEv])]
    (List.Perm.swap ("b", []) ("a", [fixEv]) [])
    (by decide) "a" true
